import Mathlib

/-!
Verification of the NovaMail backend (Express + IMAP proxy webmail client).

This file gives a shallow embedding, in Lean 4, of the decision logic of the
backend's authentication middleware, credential codec, user upsert, IMAP
service operations (folder resolution, delete, thread reconstruction),
mail-server discovery, batch routes and folder routes, and proves or refutes
the specification claims about them.  Each definition mirrors one JavaScript
function from the repository; effectful library calls (network fetches, IMAP
commands, database lookups) are passed in as explicit function parameters, so
that every route/service body becomes a pure, executable Lean function.
-/

namespace NovaMail

/-! ## String helpers mirroring the JavaScript primitives used by the code -/

/-- JavaScript `s.toLowerCase()` (restricted to the character-wise lowering
that `Char.toLower` provides, which covers the ASCII folder names and flags
the backend manipulates). -/
def lowerStr (s : String) : String := String.mk (s.data.map Char.toLower)

/-- JavaScript `s.toUpperCase()` (character-wise, as for `lowerStr`). -/
def upperStr (s : String) : String := String.mk (s.data.map Char.toUpper)

/-- JavaScript `s.split(sep)` for a one-character separator, on char lists.
`splitOnChar sep l` always returns a non-empty list of separator-free chunks. -/
def splitOnChar (sep : Char) : List Char → List (List Char)
  | [] => [[]]
  | c :: rest =>
    if c = sep then [] :: splitOnChar sep rest
    else
      match splitOnChar sep rest with
      | [] => [[c]]
      | f :: r => (c :: f) :: r

/-- JavaScript `hay.includes(needle)`: substring containment on char lists. -/
def containsSub (hay needle : List Char) : Bool :=
  hay.tails.any (fun t => needle.isPrefixOf t)

/-- JavaScript `s.startsWith(pre)`. -/
def strStartsWith (s pre : String) : Bool := pre.data.isPrefixOf s.data

/-! ## Authentication middleware (src/backend/src/middleware/auth.js)

The middleware `authenticate` verifies the bearer token's JWT signature,
looks the session up by JTI, checks session expiry, loads the user, and
compares the session's recorded password epoch with the user's current one.
The JWT library, the session store and the user store are modelled as
function parameters; `now` models `new Date()`. -/

/-- A row of the `sessions` collection, as surfaced by `getSessionByJti`. -/
structure SessionRec where
  id : String
  userId : String
  jti : String
  passwordVersion : Nat
  expiresAt : Int
deriving DecidableEq

/-- A row of the `users` collection, as surfaced by `getUserById`. -/
structure UserRec where
  id : String
  email : String
  name : String
  passwordVersion : Nat
deriving DecidableEq

/-- Outcome of `jwt.verify`: throws `TokenExpiredError`, throws
`JsonWebTokenError`, or returns a decoded payload carrying the JTI. -/
inductive TokenVerify
  | expired
  | invalid
  | valid (jti : String)
deriving DecidableEq

/-- The response chosen by the `authenticate` middleware: one constructor per
`return res.status(401)...` site, plus `authenticated` for `next()`. -/
inductive AuthOutcome
  | noToken
  | tokenExpired
  | invalidToken
  | invalidSession
  | sessionExpired
  | userNotFound
  | passwordChanged
  | authenticated (userId : String) (jti : String)
deriving DecidableEq

/-- The decision logic of `authenticate` from
`src/backend/src/middleware/auth.js`.  `verify` is `jwt.verify` with the
server's secret, `getSessionByJti`/`getUserById` are the database reads, and
`now > session.expiresAt` is the expiry comparison `new Date() > s.expiresAt`. -/
def authenticate (verify : String → TokenVerify)
    (getSessionByJti : String → Option SessionRec)
    (getUserById : String → Option UserRec)
    (now : Int) (authHeader : Option String) : AuthOutcome :=
  match authHeader with
  | none => .noToken
  | some h =>
    if strStartsWith h ("Bearer ") then
      match (splitOnChar ' ' h.data)[1]? with
      | none => .invalidToken
      | some tokChars =>
        match verify (String.mk tokChars) with
        | .expired => .tokenExpired
        | .invalid => .invalidToken
        | .valid jti =>
          match getSessionByJti jti with
          | none => .invalidSession
          | some session =>
            if now > session.expiresAt then .sessionExpired
            else
              match getUserById session.userId with
              | none => .userNotFound
              | some user =>
                if session.passwordVersion ≠ user.passwordVersion then .passwordChanged
                else .authenticated user.id jti
    else .noToken

/-- HTTP status produced for each middleware outcome: every failure branch in
the source responds with status 401; `next()` lets the request proceed. -/
def authStatus : AuthOutcome → Nat
  | .authenticated _ _ => 200
  | _ => 401

/-! ## Folder routes (src/backend/src/routes/folders.js) -/

/-- The hardcoded protection list of `DELETE /api/folders/:path`. -/
def systemFolders : List String := ["INBOX", "Sent", "Drafts", "Trash", "Spam", "Junk"]

/-- Result of the folder-deletion route: either the 400 rejection, or an
`imapService.deleteMailbox(decodedPath)` call is issued. -/
inductive FolderDeleteResult
  | rejected400
  | deleteAttempted (path : String)
deriving DecidableEq

/-- The decision logic of `DELETE /api/folders/:path`: the request is
rejected before any IMAP call when the decoded path case-insensitively equals
a system folder name. -/
def deleteFolderRoute (decodedPath : String) : FolderDeleteResult :=
  if systemFolders.any (fun f => lowerStr f = lowerStr decodedPath) then .rejected400
  else .deleteAttempted decodedPath

/-! ## User upsert (pocketbase service, `upsertUser`)

On login the backend upserts the User row.  `encryptPassword(password)` is
effectful (fresh random IV per call), so the encrypted password is passed in
as a value; the looked-up existing row (or its absence, the 404 branch) is
the `existing` parameter. -/

/-- A row of the `users` collection as written by `upsertUser`. -/
structure StoredUser where
  email : String
  encryptedPassword : String
  name : String
  imapHost : String
  imapPort : Nat
  imapSecurity : String
  smtpHost : String
  smtpPort : Nat
  smtpSecurity : String
  passwordVersion : Nat
deriving DecidableEq

/-- The `userData` argument of `upsertUser` (security fields are optional and
default to SSL/TLS resp. STARTTLS, mirroring `imapSecurity || 'SSL/TLS'`). -/
structure LoginUserData where
  email : String
  name : String
  imapHost : String
  imapPort : Nat
  imapSecurity : Option String
  smtpHost : String
  smtpPort : Nat
  smtpSecurity : Option String
deriving DecidableEq

/-- `upsertUser` from the pocketbase service: updates the existing row,
setting `password_version` to `(existing.password_version || 1) + 1`
(`passwordVersion = 0` models a missing/falsy stored field), or creates a
fresh row with `password_version: 1`. -/
def upsertUser (existing : Option StoredUser) (encryptedPassword : String)
    (d : LoginUserData) : StoredUser :=
  match existing with
  | some u =>
    { email := u.email
      encryptedPassword := encryptedPassword
      name := d.name
      imapHost := d.imapHost
      imapPort := d.imapPort
      imapSecurity := d.imapSecurity.getD ("SSL/TLS")
      smtpHost := d.smtpHost
      smtpPort := d.smtpPort
      smtpSecurity := d.smtpSecurity.getD ("STARTTLS")
      passwordVersion := (if u.passwordVersion = 0 then 1 else u.passwordVersion) + 1 }
  | none =>
    { email := lowerStr d.email
      encryptedPassword := encryptedPassword
      name := d.name
      imapHost := d.imapHost
      imapPort := d.imapPort
      imapSecurity := d.imapSecurity.getD ("SSL/TLS")
      smtpHost := d.smtpHost
      smtpPort := d.smtpPort
      smtpSecurity := d.smtpSecurity.getD ("STARTTLS")
      passwordVersion := 1 }

/-! ## IMAP service: folder resolution and delete (novamail `imap.js`)

A mailbox listing entry as returned by `client.list()`; `resolveFolderPath`
and `deleteEmail` are modelled on a fresh `ImapService` instance, whose
`_folderCache` is `null`, so resolution always performs the listing scan. -/

/-- One entry of the `client.list()` result, with the fields the backend
reads: display name, real path, RFC 6154 special-use tag. -/
structure MailboxInfo where
  name : String
  path : String
  specialUse : Option String
deriving DecidableEq

/-- The `SPECIAL_USE_MAP` constant: common folder names to special-use tags. -/
def SPECIAL_USE_MAP : List (String × String) :=
  [("sent", "\\Sent"), ("drafts", "\\Drafts"), ("trash", "\\Trash"),
   ("junk", "\\Junk"), ("spam", "\\Junk"), ("archive", "\\Archive"),
   ("all", "\\All"), ("flagged", "\\Flagged"), ("important", "\\Important")]

/-- One iteration of the `for (const box of mailboxes)` loop in
`resolveFolderPath`: `acc` is the running `resolvedPath` (a later match
overwrites an earlier one).  The name/path comparison happens first, then the
special-use alias comparison, exactly as in the source. -/
def resolveStep (folder : String) (acc : Option String) (box : MailboxInfo) :
    Option String :=
  let acc1 := if lowerStr box.name = lowerStr folder ∨ lowerStr box.path = lowerStr folder
    then some box.path else acc
  match box.specialUse with
  | some su =>
    match SPECIAL_USE_MAP.lookup (lowerStr folder) with
    | some flag => if su = flag then some box.path else acc1
    | none => acc1
  | none => acc1

/-- `ImapService.resolveFolderPath` on a fresh instance: INBOX short-circuit,
then the listing scan with last-match-wins, returning the caller's original
string when nothing matched. -/
def resolveFolderPath (mailboxes : List MailboxInfo) (folder : String) : String :=
  if upperStr folder = "INBOX" then "INBOX"
  else (mailboxes.foldl (resolveStep folder) none).getD folder

/-- All mailboxes an entry can match when resolving the name "trash":
case-insensitive display name, case-insensitive path, or the Trash
special-use tag (helper used to state the corrected C7). -/
def trashQueryMatch (b : MailboxInfo) : Prop :=
  lowerStr b.name = "trash" ∨ lowerStr b.path = "trash" ∨ b.specialUse = some ("\\Trash")

instance : DecidablePred trashQueryMatch := fun b => by
  unfold trashQueryMatch
  infer_instance

/-- The IMAP command `deleteEmail` ultimately issues for the message. -/
inductive DeleteAction
  | hardDelete
  | moveTo (path : String)
deriving DecidableEq

/-- `ImapService.deleteEmail`: resolve the folder, treat it as trash when the
resolved path contains "trash" or "deleted" (case-insensitively); hard-delete
when `permanent` or already in trash, otherwise move to the first listed
mailbox tagged `\Trash` — and hard-delete when none exists. -/
def deleteEmail (mailboxes : List MailboxInfo) (folder : String) (permanent : Bool) :
    DeleteAction :=
  let resolved := resolveFolderPath mailboxes folder
  let isInTrash := containsSub (lowerStr resolved).data (("trash").data) ||
    containsSub (lowerStr resolved).data (("deleted").data)
  if permanent || isInTrash then .hardDelete
  else
    match mailboxes.find? (fun b => b.specialUse == some ("\\Trash")) with
    | some trashBox => .moveTo trashBox.path
    | none => .hardDelete

/-- The `trashFolders` name list of the pmail-backend `deleteEmail` variant:
conventional trash display names, compared exactly (`Array.includes`). -/
def trashFolderNames : List String :=
  ["Trash", "Deleted", "Deleted Items", "Deleted Messages"]

/-- The pmail-backend variant of `ImapService.deleteEmail`
(src/pmail-backend/src/services/imap.js): no folder resolution — the folder
is opened as given and treated as trash when its lowercased name is exactly
"trash"; hard-delete when `permanent` or already in trash, otherwise move to
the first listed mailbox tagged `\Trash` or bearing one of the conventional
trash names — and hard-delete when none exists. -/
def deleteEmailPmail (mailboxes : List MailboxInfo) (folder : String)
    (permanent : Bool) : DeleteAction :=
  if permanent || lowerStr folder == "trash" then .hardDelete
  else
    match mailboxes.find? (fun b =>
        b.specialUse == some ("\\Trash") || trashFolderNames.contains b.name) with
    | some trashBox => .moveTo trashBox.path
    | none => .hardDelete

/-! ## Folder-empty route (src/backend/src/routes/folders.js) -/

/-- The `allowedFolders` name list of `POST /api/folders/:path/empty`. -/
def allowedFolders : List String :=
  ["trash", "deleted", "deleted items", "spam", "junk", "junk e-mail"]

/-- Result of the folder-empty route: 400 rejection (nothing deleted) or an
`imapService.emptyFolder(decodedPath)` call (permanent deletion of every
message in the mailbox). -/
inductive EmptyResult
  | rejected400
  | emptied (path : String)
deriving DecidableEq

/-- The decision logic of `POST /api/folders/:path/empty`: find the listed
mailbox with exactly the decoded path; allow only when it carries the
`\Trash` or `\Junk` special-use tag or its lowercased display name is in
`allowedFolders`. -/
def emptyFolderRoute (mailboxes : List MailboxInfo) (decodedPath : String) :
    EmptyResult :=
  match mailboxes.find? (fun b => b.path == decodedPath) with
  | some targetBox =>
    if targetBox.specialUse = some ("\\Trash") ∨ targetBox.specialUse = some ("\\Junk") ∨
        lowerStr targetBox.name ∈ allowedFolders
    then .emptied decodedPath else .rejected400
  | none => .rejected400

/-! ## Batch routes (src/backend/src/routes/emails batch endpoints)

Each batch route validates the array, fires one IMAP proxy operation per
item via `Promise.allSettled`, and reports `succeeded`/`failed` as the
counts of fulfilled and rejected promises.  The per-item operation's outcome
is modelled by the `outcome` parameter; `Promise.allSettled` never rejects
and never undoes a fulfilled item. -/

/-- The status of one settled promise in the `Promise.allSettled` result. -/
inductive Settled
  | fulfilled
  | rejected
deriving DecidableEq

/-- One element of the request's `emails` array. -/
structure BatchItem where
  folder : String
  uid : Nat
deriving DecidableEq

/-- The JSON body `{success, succeeded, failed}` of a batch response. -/
structure BatchResponse where
  success : Bool
  succeeded : Nat
  failed : Nat
deriving DecidableEq

/-- The decision logic shared by `POST /api/emails/batch/read`, `/delete`,
`/move`, `/star` (and `/archive`, `/spam`): reject an empty array with 400
(`none`), otherwise settle every per-item operation and count outcomes. -/
def batchRoute (outcome : BatchItem → Settled) (emails : List BatchItem) :
    Option BatchResponse :=
  if emails.isEmpty then none
  else
    let results := emails.map outcome
    some ⟨true, (results.filter (fun r => r == Settled.fulfilled)).length,
      (results.filter (fun r => r == Settled.rejected)).length⟩

/-! ## Mail-server discovery (`discoverMailConfig` in the auth routes)

The network is the `net` parameter (`fetch` of a candidate URL either throws
or times out — `failure` — or yields a response with its `ok` flag and body
text).  The two XML parsers are regex-based pure helpers; they enter as
function parameters because the fallback claim holds for any parser
behaviour.  `encodeURIComponent` on the e-mail address is modelled as the
identity; the URLs only serve as lookup keys into `net`. -/

/-- Result of `fetch(url)` with the 5-second abort: an exception/timeout, or
a response with its `ok` flag and body. -/
inductive FetchOutcome
  | failure
  | response (ok : Bool) (body : String)
deriving DecidableEq

/-- One protocol entry of a discovered configuration. -/
structure ProtoConfig where
  host : String
  port : Nat
  secure : Bool
  starttls : Bool
deriving DecidableEq

/-- The `config` object: IMAP and SMTP entries. -/
structure DiscConfig where
  imap : ProtoConfig
  smtp : ProtoConfig
deriving DecidableEq

/-- The `source` field of a discovery result. -/
inductive DiscoverySource
  | autoconfig
  | autodiscover
  | fallback
deriving DecidableEq

/-- The discovery result `{found, source, config}`. -/
structure Discovery where
  found : Bool
  source : DiscoverySource
  config : DiscConfig
deriving DecidableEq

/-- JavaScript `email.split('@')[1]` (empty when there is no `@`). -/
def domainOf (email : String) : String :=
  String.mk ((splitOnChar '@' email.data).getD 1 [])

/-- The ordered Mozilla-autoconfig candidate URLs. -/
def autoconfigUrls (email domain : String) : List String :=
  [("https://autoconfig.") ++ domain ++ ("/mail/config-v1.1.xml?emailaddress=") ++ email,
   ("https://autodiscover.") ++ domain ++ ("/mail/config-v1.1.xml?emailaddress=") ++ email,
   ("https://") ++ domain ++ ("/.well-known/autoconfig/mail/config-v1.1.xml?emailaddress=") ++ email]

/-- The ordered Microsoft-autodiscover candidate URLs. -/
def autodiscoverUrls (domain : String) : List String :=
  [("https://autoconfig.") ++ domain ++ ("/autodiscover/autodiscover.xml"),
   ("https://autodiscover.") ++ domain ++ ("/autodiscover/autodiscover.xml"),
   ("https://") ++ domain ++ ("/autodiscover/autodiscover.xml")]

/-- The body of the first candidate loop: a candidate succeeds only when the
GET returns an ok response whose parsed config exposes both an IMAP and an
SMTP hostname (JavaScript truthiness of the host strings). -/
def tryAutoconfigUrl (net : String → FetchOutcome)
    (parseAutoconfig : String → DiscConfig) (url : String) : Option Discovery :=
  match net url with
  | .response true body =>
    let config := parseAutoconfig body
    if config.imap.host ≠ "" ∧ config.smtp.host ≠ "" then
      some ⟨true, .autoconfig, config⟩
    else none
  | _ => none

/-- The body of the second candidate loop: the POST-based exchange succeeds
when at least one of the IMAP or SMTP hostnames resolves. -/
def tryAutodiscoverUrl (net : String → FetchOutcome)
    (parseAutodiscover : String → DiscConfig) (url : String) : Option Discovery :=
  match net url with
  | .response true body =>
    let config := parseAutodiscover body
    if config.imap.host ≠ "" ∨ config.smtp.host ≠ "" then
      some ⟨true, .autodiscover, config⟩
    else none
  | _ => none

/-- `discoverMailConfig`: try every autoconfig candidate in order, then every
autodiscover candidate, and fall back to `mail.<domain>` with implicit-TLS
ports (IMAP 993, SMTP 465) marked `found: false` when both loops exhaust. -/
def discoverMailConfig (net : String → FetchOutcome)
    (parseAutoconfig parseAutodiscover : String → DiscConfig)
    (email : String) : Discovery :=
  let domain := domainOf email
  match (autoconfigUrls email domain).findSome? (tryAutoconfigUrl net parseAutoconfig) with
  | some d => d
  | none =>
    match (autodiscoverUrls domain).findSome? (tryAutodiscoverUrl net parseAutodiscover) with
    | some d => d
    | none =>
      ⟨false, .fallback,
        ⟨⟨("mail.") ++ domain, 993, true, false⟩,
         ⟨("mail.") ++ domain, 465, true, false⟩⟩⟩

/-! ## Thread reconstruction (`ImapService.getThread`)

`getThread` fetches the target message by UID, strips a single leading
reply/forward tag from its subject with the anchored regex
`/^(Re|Fwd|Fw):\s*/gi` followed by `.trim()`, asks the server for all
messages whose subject contains that base subject (IMAP `SEARCH SUBJECT`, a
case-insensitive substring match per RFC 3501 — the server is external, so
its search is modelled from that standard), and sorts the result by date
ascending. -/

/-- The ASCII characters matched by the regex class `\s` (and removed by
`String.prototype.trim`); the rare non-ASCII whitespace code points do not
occur in the scenarios considered. -/
def isJsWs (c : Char) : Bool :=
  c == ' ' || c == '\t' || c == '\n' || c == '\r' || c == Char.ofNat 11 || c == Char.ofNat 12

/-- JavaScript `s.trim()`. -/
def jsTrim (s : String) : String :=
  String.mk (((s.data.dropWhile isJsWs).reverse.dropWhile isJsWs).reverse)

/-- `subject.replace(/^(Re|Fwd|Fw):\s*/gi, '')`: the pattern is anchored, so
despite the `g` flag at most one leading tag (with its trailing whitespace)
is removed; the alternation tries `Re`, then `Fwd`, then `Fw`, each followed
by a colon, case-insensitively. -/
def stripReplyPrefix (s : String) : String :=
  let low := s.data.map Char.toLower
  if ("re:").data.isPrefixOf low then String.mk ((s.data.drop 3).dropWhile isJsWs)
  else if ("fwd:").data.isPrefixOf low then String.mk ((s.data.drop 4).dropWhile isJsWs)
  else if ("fw:").data.isPrefixOf low then String.mk ((s.data.drop 3).dropWhile isJsWs)
  else s

/-- The per-message fields `getThread` relies on: the UID, the envelope
subject, and the envelope date (as a timestamp). -/
structure EmailMsg where
  uid : Nat
  subject : String
  date : Nat
deriving DecidableEq

/-- The IMAP `SEARCH SUBJECT <query>` criterion: the query occurs in the
subject, compared case-insensitively (RFC 3501 substring semantics). -/
def subjectContains (query subj : String) : Bool :=
  containsSub ((lowerStr subj).data) ((lowerStr query).data)

/-- Stable insertion for the ascending-by-date sort
`threadMessages.sort((a, b) => a.date - b.date)`. -/
def insertByDate (m : EmailMsg) : List EmailMsg → List EmailMsg
  | [] => [m]
  | h :: t => if m.date ≤ h.date then m :: h :: t else h :: insertByDate m t

/-- Ascending-by-date sort of the thread messages. -/
def sortByDate (l : List EmailMsg) : List EmailMsg := l.foldr insertByDate []

/-- `ImapService.getThread` over the folder's messages: `none` models the
"Email not found" error; an empty base subject yields an empty thread,
otherwise the folder is searched for the base subject and the matches are
returned sorted chronologically ascending. -/
def getThread (msgs : List EmailMsg) (uid : Nat) : Option (List EmailMsg) :=
  match msgs.find? (fun m => m.uid == uid) with
  | none => none
  | some target =>
    let baseSubject := jsTrim (stripReplyPrefix target.subject)
    let threadMsgs :=
      if baseSubject = "" then []
      else msgs.filter (fun m => subjectContains baseSubject m.subject)
    some (sortByDate threadMsgs)

/-- The folder of the C5 scenario: an original message, two stacked replies,
and one unrelated message, at the given dates. -/
def threadScenario (t0 t1 t2 t3 : Nat) : List EmailMsg :=
  [⟨1, "Status", t0⟩, ⟨2, "Re: Status", t1⟩, ⟨3, "Re: Re: Status", t2⟩, ⟨4, "Other", t3⟩]

/-! ## Credential codec (`encryptPassword` / `decryptPassword`)

The codec derives a key from the environment secret (PBKDF2), encrypts with
AES-256-GCM under a fresh random IV, and emits `ivHex:cipherHex:tagHex`.
The AES-GCM primitive lives in node:crypto, outside this repository; it is
modelled by its CTR-mode structure — a deterministic keystream generated
from (key, iv) XOR-ed with the plaintext, plus an authentication tag
computed from (key, iv, ciphertext) and verified before decryption releases
any plaintext.  Key derivation, keystream and tag are fields of an abstract
`CipherModel`, so the round-trip theorem holds for every such cipher.
Passwords are taken as their UTF-8 byte sequences (`List Nat`, bytes < 256). -/

/-- One hexadecimal digit character, as produced by Buffer hex encoding
(lowercase, `0`–`9` then `a`–`f`). -/
def hexDigitChar (n : Nat) : Char :=
  if n < 10 then Char.ofNat (('0').toNat + n)
  else if n < 16 then Char.ofNat (('a').toNat + n - 10)
  else '0'

/-- Hex encoding of one byte: high nibble then low nibble. -/
def hexByte (b : Nat) : List Char := [hexDigitChar (b / 16), hexDigitChar (b % 16)]

/-- `buffer.toString('hex')`. -/
def hexEncode (bs : List Nat) : List Char := (bs.map hexByte).flatten

/-- Value of one hex digit character (`Buffer.from(_, 'hex')` accepts both
letter cases); `none` for a non-hex character. -/
def hexDigitVal (c : Char) : Option Nat :=
  if ('0') ≤ c ∧ c ≤ ('9') then some (c.toNat - ('0').toNat)
  else if ('a') ≤ c ∧ c ≤ ('f') then some (c.toNat - ('a').toNat + 10)
  else if ('A') ≤ c ∧ c ≤ ('F') then some (c.toNat - ('A').toNat + 10)
  else none

/-- `Buffer.from(hexString, 'hex')`: decode pairs of hex digits. -/
def hexDecode : List Char → Option (List Nat)
  | [] => some []
  | c1 :: c2 :: rest => do
    let hi ← hexDigitVal c1
    let lo ← hexDigitVal c2
    let tail ← hexDecode rest
    pure ((hi * 16 + lo) :: tail)
  | [_] => none

/-- CTR-mode byte stream: XOR each byte with the keystream at its index. -/
def xorKeystream (ks : Nat → Nat) : Nat → List Nat → List Nat
  | _, [] => []
  | i, b :: rest => (b ^^^ ks i) :: xorKeystream ks (i + 1) rest

/-- Abstract model of the PBKDF2 + AES-256-GCM primitives from node:crypto:
a deterministic key derivation from the secret, a byte-valued keystream
determined by (key, iv), and a byte-list authentication tag determined by
(key, iv, ciphertext). -/
structure CipherModel where
  deriveKey : String → List Nat
  keystream : List Nat → List Nat → Nat → Nat
  authTag : List Nat → List Nat → List Nat → List Nat
  keystream_lt : ∀ key iv i, keystream key iv i < 256
  authTag_lt : ∀ key iv c, ∀ b ∈ authTag key iv c, b < 256

/-- `encryptPassword`: reject the empty password (the thrown
`Cannot encrypt empty password` is `none`), derive the key from the secret,
encrypt under the given IV, and emit `ivHex:cipherHex:tagHex`. -/
def encryptPassword (M : CipherModel) (secret : String) (iv plaintext : List Nat) :
    Option (List Char) :=
  if plaintext.isEmpty then none
  else
    let key := M.deriveKey secret
    let encrypted := xorKeystream (M.keystream key iv) 0 plaintext
    let tag := M.authTag key iv encrypted
    some (hexEncode iv ++ ':' :: hexEncode encrypted ++ ':' :: hexEncode tag)

/-- `decryptPassword`: reject the empty blob, split on colons, require
exactly three fields (`Invalid encrypted password format` is `none`), decode
the hex fields, re-derive the key from the secret, verify the authentication
tag over the ciphertext, and only then release the XOR-decrypted plaintext;
a tag mismatch (tampering or wrong key) is `none`. -/
def decryptPassword (M : CipherModel) (secret : String) (blob : List Char) :
    Option (List Nat) :=
  if blob.isEmpty then none
  else
    let key := M.deriveKey secret
    match splitOnChar ':' blob with
    | [ivHex, encryptedHex, authTagHex] => do
      let iv ← hexDecode ivHex
      let encrypted ← hexDecode encryptedHex
      let tag ← hexDecode authTagHex
      if tag = M.authTag key iv encrypted then
        some (xorKeystream (M.keystream key iv) 0 encrypted)
      else none
    | _ => none

/-- A concrete degenerate cipher (zero keystream, empty tag) used to witness
the round-trip theorem on explicit inputs. -/
def trivialCipher : CipherModel where
  deriveKey := fun _ => []
  keystream := fun _ _ _ => 0
  authTag := fun _ _ _ => []
  keystream_lt := fun _ _ _ => Nat.succ_pos 255
  authTag_lt := fun _ _ _ b hb => absurd hb (List.not_mem_nil b)

end NovaMail

namespace NovaMail

/-! ## Theorems for claims C1 and C9 -/

/-- C1: for every stored session whose recorded password epoch differs from
the owning user's current password epoch, `authenticate` rejects the request
as unauthenticated (HTTP 401) with the Password Changed reason, even when the
token's signature verification and expiry checks both succeed. -/
theorem password_epoch_mismatch_rejected
    (verify : String → TokenVerify) (getSessionByJti : String → Option SessionRec)
    (getUserById : String → Option UserRec) (now : Int) (h : String)
    (tok : List Char) (jti : String) (session : SessionRec) (user : UserRec)
    (hpre : strStartsWith h ("Bearer ") = true)
    (htok : (splitOnChar ' ' h.data)[1]? = some tok)
    (hver : verify (String.mk tok) = .valid jti)
    (hsess : getSessionByJti jti = some session)
    (hexp : ¬ now > session.expiresAt)
    (huser : getUserById session.userId = some user)
    (hpv : session.passwordVersion ≠ user.passwordVersion) :
    authenticate verify getSessionByJti getUserById now (some h) = .passwordChanged ∧
      authStatus (authenticate verify getSessionByJti getUserById now (some h)) = 401 := by
  have : authenticate verify getSessionByJti getUserById now (some h) = .passwordChanged := by
    simp only [authenticate, hpre, if_true, htok, hver, hsess, huser]
    rw [if_neg hexp, if_pos hpv]
  exact ⟨this, by rw [this]; rfl⟩

/-- Witness for `password_epoch_mismatch_rejected` at a concrete session whose
epoch (1) differs from the user's current epoch (2). -/
theorem password_epoch_mismatch_rejected_witness :
    authenticate
      (fun s => if s = "tok123" then TokenVerify.valid "jti1" else TokenVerify.invalid)
      (fun j => if j = "jti1" then some ⟨"s1", "u1", "jti1", 1, 100⟩ else none)
      (fun u => if u = "u1" then some ⟨"u1", "a@b.c", "a", 2⟩ else none)
      50 (some ("Bearer tok123")) = .passwordChanged ∧
      authStatus (authenticate
        (fun s => if s = "tok123" then TokenVerify.valid "jti1" else TokenVerify.invalid)
        (fun j => if j = "jti1" then some ⟨"s1", "u1", "jti1", 1, 100⟩ else none)
        (fun u => if u = "u1" then some ⟨"u1", "a@b.c", "a", 2⟩ else none)
        50 (some ("Bearer tok123"))) = 401 :=
  password_epoch_mismatch_rejected _ _ _ 50 ("Bearer tok123")
    ("tok123").data "jti1" ⟨"s1", "u1", "jti1", 1, 100⟩ ⟨"u1", "a@b.c", "a", 2⟩
    (by decide) (by decide) (by decide) (by decide) (by decide) (by decide) (by decide)

/-- C9: every `DELETE /api/folders/:path` request whose decoded path
case-insensitively equals a system folder name is rejected with a 400 error,
and no mailbox deletion is attempted against the IMAP server. -/
theorem system_folder_delete_rejected (decodedPath : String)
    (hsys : ∃ f ∈ systemFolders, lowerStr f = lowerStr decodedPath) :
    deleteFolderRoute decodedPath = .rejected400 := by
  unfold deleteFolderRoute
  rw [if_pos]
  rw [List.any_eq_true]
  obtain ⟨f, hf, heq⟩ := hsys
  exact ⟨f, hf, by simp [heq]⟩

/-- Witness for `system_folder_delete_rejected` at the decoded path "trash",
which case-insensitively equals the system folder "Trash". -/
theorem system_folder_delete_rejected_witness :
    deleteFolderRoute ("trash") = .rejected400 :=
  system_folder_delete_rejected ("trash") (by decide)

/-! ## Theorems for claim C3 (user upsert and the password epoch) -/

/-- C3 counterexample: a known user whose stored encrypted password is
"encblob" and whose epoch is 1 logs in again; the upsert receives the very
same encrypted password, yet the stored epoch becomes 2 — the claim that an
unchanged password leaves the epoch unchanged is false. -/
theorem upsert_same_password_bumps_epoch_cex :
    (upsertUser
        (some ⟨"a@b.c", "encblob", "a", "imap.b.c", 993, "SSL/TLS", "smtp.b.c", 465,
          "STARTTLS", 1⟩)
        ("encblob")
        ⟨"a@b.c", "a", "imap.b.c", 993, some ("SSL/TLS"), "smtp.b.c", 465,
          some ("STARTTLS")⟩).passwordVersion = 2 ∧ (2 : Nat) ≠ 1 := by
  decide

/-- C3 amended: on every successful login by an already-known user the upsert
bumps the password epoch unconditionally — to stored + 1 whenever an epoch
was stored — regardless of whether the supplied password differs from the
stored encrypted one (the code never compares the two). -/
theorem upsert_known_user_always_bumps_epoch (u : StoredUser) (enc : String)
    (d : LoginUserData) (h : u.passwordVersion ≠ 0) :
    (upsertUser (some u) enc d).passwordVersion = u.passwordVersion + 1 := by
  simp [upsertUser, h]

/-- Witness for `upsert_known_user_always_bumps_epoch` at a user with epoch 3. -/
theorem upsert_known_user_always_bumps_epoch_witness :
    (upsertUser
        (some ⟨"x@y.z", "oldenc", "x", "imap.y.z", 993, "SSL/TLS", "smtp.y.z", 465,
          "STARTTLS", 3⟩)
        ("oldenc")
        ⟨"x@y.z", "x", "imap.y.z", 993, none, "smtp.y.z", 465, none⟩).passwordVersion =
      (⟨"x@y.z", "oldenc", "x", "imap.y.z", 993, "SSL/TLS", "smtp.y.z", 465,
          "STARTTLS", 3⟩ : StoredUser).passwordVersion + 1 :=
  upsert_known_user_always_bumps_epoch
    ⟨"x@y.z", "oldenc", "x", "imap.y.z", 993, "SSL/TLS", "smtp.y.z", 465, "STARTTLS", 3⟩
    ("oldenc")
    ⟨"x@y.z", "x", "imap.y.z", 993, none, "smtp.y.z", 465, none⟩ (by decide)

/-! ## Theorems for claim C4 (deleteEmail with no Trash mailbox) -/

/-- C4 counterexample: deleting (non-permanently) from INBOX when the listing
has no `\Trash`-tagged mailbox hard-deletes the message — the code never
creates a Trash folder, contradicting the claim that the message is moved to
a freshly created Trash folder and never hard-deleted. -/
theorem delete_no_trash_mailbox_cex :
    deleteEmail [⟨"INBOX", "INBOX", none⟩] ("INBOX") false = .hardDelete := by
  decide

/-- C4 amended: whenever the mailbox listing carries no entry with the
`\Trash` special-use tag and none with a conventional trash display name, a
non-permanent `deleteEmail` issues a hard delete (regardless of the folder)
in both implementations — the novamail variant, whose move-target lookup
checks the tag alone, and the pmail-backend variant, whose lookup also
accepts the conventional names — instead of creating a Trash folder and
moving the message. -/
theorem delete_no_trash_mailbox_hard_deletes (mailboxes : List MailboxInfo)
    (folder : String)
    (htag : ∀ b ∈ mailboxes, b.specialUse ≠ some ("\\Trash"))
    (hname : ∀ b ∈ mailboxes, b.name ∉ trashFolderNames) :
    deleteEmail mailboxes folder false = .hardDelete ∧
      deleteEmailPmail mailboxes folder false = .hardDelete := by
  constructor
  · have hfind : mailboxes.find? (fun b => b.specialUse == some ("\\Trash")) = none := by
      rw [List.find?_eq_none]
      intro x hx
      simpa using htag x hx
    simp only [deleteEmail, hfind, Bool.false_or]
    split <;> rfl
  · have hfind : mailboxes.find? (fun b =>
        b.specialUse == some ("\\Trash") || trashFolderNames.contains b.name) = none := by
      rw [List.find?_eq_none]
      intro x hx
      simp [htag x hx, hname x hx]
    simp only [deleteEmailPmail, hfind, Bool.false_or]
    split <;> rfl

/-- Witness for `delete_no_trash_mailbox_hard_deletes` on a listing holding
only an Archive mailbox. -/
theorem delete_no_trash_mailbox_hard_deletes_witness :
    deleteEmail [⟨"Archive", "Archive", some ("\\Archive")⟩] ("Archive") false =
        .hardDelete ∧
      deleteEmailPmail [⟨"Archive", "Archive", some ("\\Archive")⟩] ("Archive") false =
        .hardDelete :=
  delete_no_trash_mailbox_hard_deletes
    [⟨"Archive", "Archive", some ("\\Archive")⟩] ("Archive") (by decide) (by decide)

/-! ## Theorems for claim C7 (resolving "trash" via the special-use tag) -/

/-- C7 counterexample: the listing holds a `\Trash`-tagged mailbox "Deleted"
and, later, an untagged mailbox displayed as "trash" at path "Other/trash".
The scan's last match wins, so `resolveFolderPath "trash"` returns
"Other/trash", not the `\Trash`-tagged entry's path. -/
theorem resolve_trash_last_match_cex :
    resolveFolderPath
        [⟨"Deleted", "Deleted", some ("\\Trash")⟩, ⟨"trash", "Other/trash", none⟩]
        ("trash") = "Other/trash" ∧
      resolveFolderPath
        [⟨"Deleted", "Deleted", some ("\\Trash")⟩, ⟨"trash", "Other/trash", none⟩]
        ("trash") ≠ "Deleted" := by
  decide

/-- In the scan for "trash", one loop step either leaves the accumulator
untouched (and the entry matches nothing) or the entry matches the query —
by display name, path, or the `\Trash` tag — and the step records its path. -/
theorem resolveStep_trash_cases (acc : Option String) (x : MailboxInfo) :
    (resolveStep ("trash") acc x = acc ∧ ¬ trashQueryMatch x) ∨
      (trashQueryMatch x ∧ resolveStep ("trash") acc x = some x.path) := by
  have htl : lowerStr ("trash") = "trash" := rfl
  have hlk : SPECIAL_USE_MAP.lookup (lowerStr ("trash")) = some ("\\Trash") := rfl
  have hlk' : SPECIAL_USE_MAP.lookup ("trash") = some ("\\Trash") := rfl
  rcases x with ⟨nm, p, su⟩
  simp only [trashQueryMatch]
  cases su with
  | none =>
    by_cases hnp : lowerStr nm = "trash" ∨ lowerStr p = "trash"
    · right
      refine ⟨by tauto, ?_⟩
      simp [resolveStep, htl, hnp]
    · left
      refine ⟨by simp [resolveStep, htl, hnp], ?_⟩
      rintro (h | h | h)
      · exact hnp (Or.inl h)
      · exact hnp (Or.inr h)
      · cases h
  | some su =>
    by_cases hsu : su = "\\Trash"
    · right
      subst hsu
      exact ⟨by tauto, by simp [resolveStep, hlk]⟩
    · by_cases hnp : lowerStr nm = "trash" ∨ lowerStr p = "trash"
      · right
        refine ⟨by tauto, ?_⟩
        simp [resolveStep, htl, hlk', hnp, hsu]
      · left
        refine ⟨by simp [resolveStep, htl, hlk', hnp, hsu], ?_⟩
        rintro (h | h | h)
        · exact hnp (Or.inl h)
        · exact hnp (Or.inr h)
        · exact hsu (Option.some.inj h)

/-- Folding the scan: when every matching entry of the list shares the path
`target`, the accumulator (if set) already holds `target`, and a match exists
(in the accumulator or ahead in the list), the scan ends on `some target`. -/
theorem foldl_resolveStep_trash (target : String) (l : List MailboxInfo) :
    ∀ acc : Option String,
      (∀ b ∈ l, trashQueryMatch b → b.path = target) →
      (∀ q, acc = some q → q = target) →
      ((∃ q, acc = some q) ∨ ∃ b ∈ l, trashQueryMatch b) →
      l.foldl (resolveStep ("trash")) acc = some target := by
  induction l with
  | nil =>
    intro acc _ hP hex
    rcases hex with ⟨q, hq⟩ | ⟨b, hb, _⟩
    · rw [List.foldl_nil, hq, hP q hq]
    · exact absurd hb (List.not_mem_nil b)
  | cons x xs ih =>
    intro acc hall hP hex
    rw [List.foldl_cons]
    rcases resolveStep_trash_cases acc x with ⟨heq, hnm⟩ | ⟨hm, heq⟩
    · rw [heq]
      apply ih
      · intro b hb hmb
        exact hall b (List.mem_cons_of_mem _ hb) hmb
      · exact hP
      · rcases hex with hacc | ⟨b, hb, hmb⟩
        · exact Or.inl hacc
        · rcases List.mem_cons.mp hb with rfl | hb'
          · exact absurd hmb hnm
          · exact Or.inr ⟨b, hb', hmb⟩
    · rw [heq]
      apply ih
      · intro b hb hmb
        exact hall b (List.mem_cons_of_mem _ hb) hmb
      · intro q hq
        have hq' : x.path = q := Option.some.inj hq
        rw [← hq']
        exact hall x (List.mem_cons_self x xs) hm
      · exact Or.inl ⟨x.path, rfl⟩

/-- C7 amended: when the listing holds a `\Trash`-tagged mailbox and every
entry that the "trash" query can match (by name, path, or tag) shares that
mailbox's path, `resolveFolderPath "trash"` returns that path — in
particular, the display name of the tagged entry is irrelevant.  (Without
the sharing condition the claim fails: a later entry merely *named* "trash"
overrides the tagged one, see `resolve_trash_last_match_cex`.) -/
theorem resolve_trash_specialuse (mailboxes : List MailboxInfo) (b : MailboxInfo)
    (hb : b ∈ mailboxes) (hsu : b.specialUse = some ("\\Trash"))
    (huniq : ∀ x ∈ mailboxes, trashQueryMatch x → x.path = b.path) :
    resolveFolderPath mailboxes ("trash") = b.path := by
  unfold resolveFolderPath
  rw [if_neg (by decide)]
  rw [foldl_resolveStep_trash b.path mailboxes none huniq
    (fun q hq => by cases hq)
    (Or.inr ⟨b, hb, Or.inr (Or.inr hsu)⟩)]
  rfl

/-- Witness for `resolve_trash_specialuse` on a listing whose Trash-tagged
mailbox is displayed as "Deleted". -/
theorem resolve_trash_specialuse_witness :
    resolveFolderPath [⟨"Deleted", "Deleted", some ("\\Trash")⟩] ("trash") =
      (⟨"Deleted", "Deleted", some ("\\Trash")⟩ : MailboxInfo).path :=
  resolve_trash_specialuse [⟨"Deleted", "Deleted", some ("\\Trash")⟩]
    ⟨"Deleted", "Deleted", some ("\\Trash")⟩ (by decide) (by decide) (by decide)

/-! ## Theorem for claim C10 (folder-empty guard) -/

/-- C10: `POST /api/folders/:path/empty` performs the permanent deletion iff
the decoded path names a listed mailbox carrying the `\Trash` or `\Junk`
special-use tag or a conventional trash/spam display name; every other
request is rejected with 400 and nothing is deleted. -/
theorem empty_folder_only_trash_spam (mailboxes : List MailboxInfo) (p : String) :
    emptyFolderRoute mailboxes p = .emptied p ↔
      ∃ b, mailboxes.find? (fun b => b.path == p) = some b ∧
        (b.specialUse = some ("\\Trash") ∨ b.specialUse = some ("\\Junk") ∨
          lowerStr b.name ∈ allowedFolders) := by
  unfold emptyFolderRoute
  cases hfind : mailboxes.find? (fun b => b.path == p) with
  | none => simp
  | some b =>
    by_cases hallow : b.specialUse = some ("\\Trash") ∨ b.specialUse = some ("\\Junk") ∨
        lowerStr b.name ∈ allowedFolders
    · simp [hallow]
    · simp [hallow]

/-! ## Theorems for claim C8 (batch operations) -/

/-- Every settled outcome is either fulfilled or rejected, so the two filter
counts partition any list of settled results. -/
theorem settled_counts_partition (emails : List BatchItem) (outcome : BatchItem → Settled) :
    (emails.filter (fun i => outcome i == Settled.fulfilled)).length +
      (emails.filter (fun i => outcome i == Settled.rejected)).length = emails.length := by
  induction emails with
  | nil => rfl
  | cons x xs ih =>
    cases hx : outcome x <;>
      simp [List.filter_cons, hx, Nat.add_assoc, Nat.add_left_comm, Nat.add_comm, ih]

/-- C8: for every non-empty batch over n items, the response reports
`succeeded` as the number of per-item operations that fulfilled and `failed`
as the number that rejected, with `succeeded + failed = n`; every item's
operation is settled independently (the counts are over `emails.map outcome`,
one proxy operation per item), and no fulfilled item is undone. -/
theorem batch_counts_partition (outcome : BatchItem → Settled)
    (emails : List BatchItem) (h : emails ≠ []) :
    batchRoute outcome emails =
      some ⟨true, (emails.filter (fun i => outcome i == Settled.fulfilled)).length,
        (emails.filter (fun i => outcome i == Settled.rejected)).length⟩ ∧
      (emails.filter (fun i => outcome i == Settled.fulfilled)).length +
        (emails.filter (fun i => outcome i == Settled.rejected)).length = emails.length := by
  refine ⟨?_, settled_counts_partition emails outcome⟩
  unfold batchRoute
  rw [if_neg (by simpa using h)]
  simp only [List.filter_map, List.length_map, Option.some.injEq, BatchResponse.mk.injEq,
    true_and]
  exact ⟨rfl, rfl⟩

/-- Witness for `batch_counts_partition`: a batch of 5 messages where the
operation on message 3 rejects reports succeeded 4, failed 1. -/
theorem batch_counts_partition_witness :
    batchRoute (fun i => if i.uid = 3 then Settled.rejected else Settled.fulfilled)
        [⟨"INBOX", 1⟩, ⟨"INBOX", 2⟩, ⟨"Gone", 3⟩, ⟨"INBOX", 4⟩, ⟨"INBOX", 5⟩] =
      some ⟨true, 4, 1⟩ ∧ 4 + 1 =
        ([⟨"INBOX", 1⟩, ⟨"INBOX", 2⟩, ⟨"Gone", 3⟩, ⟨"INBOX", 4⟩,
          ⟨"INBOX", 5⟩] : List BatchItem).length :=
  batch_counts_partition (fun i => if i.uid = 3 then Settled.rejected else Settled.fulfilled)
    [⟨"INBOX", 1⟩, ⟨"INBOX", 2⟩, ⟨"Gone", 3⟩, ⟨"INBOX", 4⟩, ⟨"INBOX", 5⟩] (by decide)

/-! ## Theorems for claim C6 (discovery fallback) -/

/-- A `findSome?` over candidates on which the probe yields nothing is `none`. -/
theorem findSome?_none_of_all {α β : Type} (f : α → Option β) (l : List α)
    (h : ∀ x ∈ l, f x = none) : l.findSome? f = none := by
  induction l with
  | nil => rfl
  | cons x xs ih =>
    rw [List.findSome?_cons, h x (List.mem_cons_self x xs)]
    exact ih (fun y hy => h y (List.mem_cons_of_mem _ hy))

/-- C6: when every autoconfig candidate and every autodiscover candidate for
the e-mail's domain fails — network error/timeout, non-ok response, or a
response whose parse does not yield the required usable hosts — discovery
returns `{found: false, source: fallback}` with `mail.<domain>` on port 993
(secure) for IMAP and port 465 (secure) for SMTP. -/
theorem discover_all_fail_fallback (net : String → FetchOutcome)
    (parseA parseD : String → DiscConfig) (email : String)
    (hA : ∀ url ∈ autoconfigUrls email (domainOf email), ∀ body,
      net url = .response true body →
        ¬((parseA body).imap.host ≠ "" ∧ (parseA body).smtp.host ≠ ""))
    (hD : ∀ url ∈ autodiscoverUrls (domainOf email), ∀ body,
      net url = .response true body →
        ¬((parseD body).imap.host ≠ "" ∨ (parseD body).smtp.host ≠ "")) :
    discoverMailConfig net parseA parseD email =
      ⟨false, .fallback,
        ⟨⟨("mail.") ++ domainOf email, 993, true, false⟩,
         ⟨("mail.") ++ domainOf email, 465, true, false⟩⟩⟩ := by
  have h1 : (autoconfigUrls email (domainOf email)).findSome?
      (tryAutoconfigUrl net parseA) = none := by
    apply findSome?_none_of_all
    intro url hu
    unfold tryAutoconfigUrl
    cases hnet : net url with
    | failure => rfl
    | response ok body =>
      cases ok with
      | false => rfl
      | true => simp only [if_neg (hA url hu body hnet)]
  have h2 : (autodiscoverUrls (domainOf email)).findSome?
      (tryAutodiscoverUrl net parseD) = none := by
    apply findSome?_none_of_all
    intro url hu
    unfold tryAutodiscoverUrl
    cases hnet : net url with
    | failure => rfl
    | response ok body =>
      cases ok with
      | false => rfl
      | true => simp only [if_neg (hD url hu body hnet)]
  simp only [discoverMailConfig, h1, h2]

/-- Witness for `discover_all_fail_fallback`: every candidate for
`user@example.org` is unreachable, and the result is the unverified
`mail.example.org` fallback. -/
theorem discover_all_fail_fallback_witness :
    discoverMailConfig (fun _ => FetchOutcome.failure)
        (fun _ => ⟨⟨"", 0, false, false⟩, ⟨"", 0, false, false⟩⟩)
        (fun _ => ⟨⟨"", 0, false, false⟩, ⟨"", 0, false, false⟩⟩)
        ("user@example.org") =
      ⟨false, .fallback,
        ⟨⟨("mail.") ++ domainOf ("user@example.org"), 993, true, false⟩,
         ⟨("mail.") ++ domainOf ("user@example.org"), 465, true, false⟩⟩⟩ :=
  discover_all_fail_fallback (fun _ => FetchOutcome.failure)
    (fun _ => ⟨⟨"", 0, false, false⟩, ⟨"", 0, false, false⟩⟩)
    (fun _ => ⟨⟨"", 0, false, false⟩, ⟨"", 0, false, false⟩⟩)
    ("user@example.org")
    (fun _ _ _ hnet => FetchOutcome.noConfusion hnet)
    (fun _ _ _ hnet => FetchOutcome.noConfusion hnet)

/-! ## Theorems for claim C5 (thread reconstruction) -/

/-- C5 counterexample: in the Status scenario, `getThread` on the message
"Re: Re: Status" strips only one "Re: " layer (the regex is anchored), so it
searches for "Re: Status" and returns only the two replies, excluding the
original "Status" message — not the three claimed messages. -/
theorem thread_double_reply_cex :
    getThread (threadScenario 0 1 2 3) 3 =
        some [⟨2, "Re: Status", 1⟩, ⟨3, "Re: Re: Status", 2⟩] ∧
      getThread (threadScenario 0 1 2 3) 3 ≠
        some [⟨1, "Status", 0⟩, ⟨2, "Re: Status", 1⟩, ⟨3, "Re: Re: Status", 2⟩] := by
  decide

/-- C5 amended: `getThread` on "Status" or on "Re: Status" returns exactly
the three related messages in ascending date order `[T0, T1, T2]`, excluding
"Other"; but on "Re: Re: Status" only one reply prefix is stripped, so the
thread is exactly the two replies `[T1, T2]`, excluding "Status". -/
theorem thread_subject_heuristic (t0 t1 t2 t3 : Nat) (h01 : t0 < t1) (h12 : t1 < t2) :
    getThread (threadScenario t0 t1 t2 t3) 1 =
        some [⟨1, "Status", t0⟩, ⟨2, "Re: Status", t1⟩, ⟨3, "Re: Re: Status", t2⟩] ∧
      getThread (threadScenario t0 t1 t2 t3) 2 =
        some [⟨1, "Status", t0⟩, ⟨2, "Re: Status", t1⟩, ⟨3, "Re: Re: Status", t2⟩] ∧
      getThread (threadScenario t0 t1 t2 t3) 3 =
        some [⟨2, "Re: Status", t1⟩, ⟨3, "Re: Re: Status", t2⟩] := by
  have h01' : t0 ≤ t1 := le_of_lt h01
  have h12' : t1 ≤ t2 := le_of_lt h12
  refine ⟨?_, ?_, ?_⟩
  · have e : getThread (threadScenario t0 t1 t2 t3) 1 =
        some (sortByDate
          [⟨1, "Status", t0⟩, ⟨2, "Re: Status", t1⟩, ⟨3, "Re: Re: Status", t2⟩]) := rfl
    rw [e]
    simp [sortByDate, insertByDate, h01', h12']
  · have e : getThread (threadScenario t0 t1 t2 t3) 2 =
        some (sortByDate
          [⟨1, "Status", t0⟩, ⟨2, "Re: Status", t1⟩, ⟨3, "Re: Re: Status", t2⟩]) := rfl
    rw [e]
    simp [sortByDate, insertByDate, h01', h12']
  · have e : getThread (threadScenario t0 t1 t2 t3) 3 =
        some (sortByDate [⟨2, "Re: Status", t1⟩, ⟨3, "Re: Re: Status", t2⟩]) := rfl
    rw [e]
    simp [sortByDate, insertByDate, h12']

/-- Witness for `thread_subject_heuristic` at dates 10 < 20 < 30. -/
theorem thread_subject_heuristic_witness :
    getThread (threadScenario 10 20 30 40) 1 =
        some [⟨1, "Status", 10⟩, ⟨2, "Re: Status", 20⟩, ⟨3, "Re: Re: Status", 30⟩] ∧
      getThread (threadScenario 10 20 30 40) 2 =
        some [⟨1, "Status", 10⟩, ⟨2, "Re: Status", 20⟩, ⟨3, "Re: Re: Status", 30⟩] ∧
      getThread (threadScenario 10 20 30 40) 3 =
        some [⟨2, "Re: Status", 20⟩, ⟨3, "Re: Re: Status", 30⟩] :=
  thread_subject_heuristic 10 20 30 40 (by decide) (by decide)

/-! ## Theorems for claim C2 (credential codec round trip) -/

/-- A separator-free chunk is not split. -/
theorem splitOnChar_no_sep (sep : Char) (l : List Char) (h : ∀ c ∈ l, c ≠ sep) :
    splitOnChar sep l = [l] := by
  induction l with
  | nil => rfl
  | cons c cs ih =>
    have hc : ¬ c = sep := h c (List.mem_cons_self _ _)
    have ih' := ih (fun x hx => h x (List.mem_cons_of_mem _ hx))
    simp only [splitOnChar, if_neg hc, ih']

/-- Unfolding step of `splitOnChar` on a non-separator head. -/
theorem splitOnChar_cons_ne (sep c : Char) (t : List Char) (hc : ¬ c = sep) :
    splitOnChar sep (c :: t) =
      match splitOnChar sep t with
      | [] => [[c]]
      | f :: r => (c :: f) :: r := by
  simp only [splitOnChar, if_neg hc]

/-- Splitting peels off a leading separator-free chunk. -/
theorem splitOnChar_append_sep (sep : Char) (l rest : List Char)
    (h : ∀ c ∈ l, c ≠ sep) :
    splitOnChar sep (l ++ sep :: rest) = l :: splitOnChar sep rest := by
  induction l with
  | nil => simp [splitOnChar]
  | cons c cs ih =>
    have hc : ¬ c = sep := h c (List.mem_cons_self _ _)
    have ih' := ih (fun x hx => h x (List.mem_cons_of_mem _ hx))
    rw [List.cons_append, splitOnChar_cons_ne _ _ _ hc, ih']

/-- Decoding inverts the hex digit table on nibble values. -/
theorem hexDigitVal_hexDigitChar : ∀ n < 16, hexDigitVal (hexDigitChar n) = some n := by
  decide

/-- No hex digit character is a colon. -/
theorem hexDigitChar_ne_colon (n : Nat) : hexDigitChar n ≠ ':' := by
  by_cases h : n < 16
  · have hall : ∀ m < 16, hexDigitChar m ≠ ':' := by decide
    exact hall n h
  · simp only [hexDigitChar, if_neg (show ¬ n < 10 by omega), if_neg h]
    decide

/-- Hex-encoded byte strings never contain the field separator. -/
theorem hexEncode_ne_colon (bs : List Nat) : ∀ c ∈ hexEncode bs, c ≠ ':' := by
  intro c hc
  rw [hexEncode, List.mem_flatten] at hc
  obtain ⟨chunk, hchunk, hcc⟩ := hc
  rw [List.mem_map] at hchunk
  obtain ⟨b, _, rfl⟩ := hchunk
  simp only [hexByte, List.mem_cons, List.not_mem_nil, or_false] at hcc
  rcases hcc with rfl | rfl
  · exact hexDigitChar_ne_colon _
  · exact hexDigitChar_ne_colon _

/-- Hex round trip on byte lists. -/
theorem hexDecode_hexEncode (bs : List Nat) (h : ∀ b ∈ bs, b < 256) :
    hexDecode (hexEncode bs) = some bs := by
  induction bs with
  | nil => rfl
  | cons b rest ih =>
    have hb : b < 256 := h b (List.mem_cons_self _ _)
    have hhi : b / 16 < 16 := by omega
    have hlo : b % 16 < 16 := by omega
    have hb' : b / 16 * 16 + b % 16 = b := by omega
    have ih' := ih (fun x hx => h x (List.mem_cons_of_mem _ hx))
    show hexDecode (hexDigitChar (b / 16) :: hexDigitChar (b % 16) :: hexEncode rest) =
      some (b :: rest)
    simp only [hexDecode, hexDigitVal_hexDigitChar _ hhi, hexDigitVal_hexDigitChar _ hlo,
      ih', Option.bind_eq_bind, Option.some_bind]
    simp [hb']

/-- XOR-ing with the same keystream twice restores the byte list. -/
theorem xorKeystream_involutive (ks : Nat → Nat) (l : List Nat) :
    ∀ i, xorKeystream ks i (xorKeystream ks i l) = l := by
  induction l with
  | nil => intro i; rfl
  | cons b rest ih =>
    intro i
    show (b ^^^ ks i ^^^ ks i) :: xorKeystream ks (i + 1) (xorKeystream ks (i + 1) rest) =
      b :: rest
    rw [Nat.xor_assoc, Nat.xor_self, Nat.xor_zero, ih (i + 1)]

/-- The keystream XOR keeps bytes in range. -/
theorem xorKeystream_lt (ks : Nat → Nat) (hks : ∀ i, ks i < 256) (l : List Nat)
    (hl : ∀ b ∈ l, b < 256) : ∀ i, ∀ b ∈ xorKeystream ks i l, b < 256 := by
  induction l with
  | nil => intro i b hb; cases hb
  | cons x rest ih =>
    intro i b hb
    rcases List.mem_cons.mp hb with rfl | hb'
    · have hx : x < 2 ^ 8 := hl x (List.mem_cons_self _ _)
      have hk : ks i < 2 ^ 8 := hks i
      exact Nat.xor_lt_two_pow hx hk
    · exact ih (fun y hy => hl y (List.mem_cons_of_mem _ hy)) (i + 1) b hb'

/-- C2: for every non-empty password (as a byte sequence) and every cipher
satisfying the CTR/tag structure of AES-256-GCM, with the same secret used
for both calls, `decryptPassword (encryptPassword p)` succeeds and returns
exactly p. -/
theorem credential_codec_roundtrip (M : CipherModel) (secret : String)
    (iv plaintext : List Nat) (hp : plaintext ≠ [])
    (hpb : ∀ b ∈ plaintext, b < 256) (hiv : ∀ b ∈ iv, b < 256) :
    ∃ blob, encryptPassword M secret iv plaintext = some blob ∧
      decryptPassword M secret blob = some plaintext := by
  have hpe : plaintext.isEmpty = false := by
    cases plaintext with
    | nil => exact absurd rfl hp
    | cons a l => rfl
  refine ⟨hexEncode iv ++ ':' ::
      hexEncode (xorKeystream (M.keystream (M.deriveKey secret) iv) 0 plaintext) ++ ':' ::
      hexEncode (M.authTag (M.deriveKey secret) iv
        (xorKeystream (M.keystream (M.deriveKey secret) iv) 0 plaintext)), ?_, ?_⟩
  · simp only [encryptPassword, hpe, Bool.false_eq_true, if_false]
  · have hne : (hexEncode iv ++ ':' ::
        hexEncode (xorKeystream (M.keystream (M.deriveKey secret) iv) 0 plaintext) ++ ':' ::
        hexEncode (M.authTag (M.deriveKey secret) iv
          (xorKeystream (M.keystream (M.deriveKey secret) iv) 0 plaintext))).isEmpty =
        false := by
      cases h : hexEncode iv <;> simp [h]
    have hE : ∀ b ∈ xorKeystream (M.keystream (M.deriveKey secret) iv) 0 plaintext,
        b < 256 :=
      xorKeystream_lt (M.keystream (M.deriveKey secret) iv)
        (M.keystream_lt (M.deriveKey secret) iv) plaintext hpb 0
    have hT : ∀ b ∈ M.authTag (M.deriveKey secret) iv
        (xorKeystream (M.keystream (M.deriveKey secret) iv) 0 plaintext), b < 256 :=
      M.authTag_lt (M.deriveKey secret) iv
        (xorKeystream (M.keystream (M.deriveKey secret) iv) 0 plaintext)
    have hsplit : splitOnChar ':' (hexEncode iv ++ ':' ::
        hexEncode (xorKeystream (M.keystream (M.deriveKey secret) iv) 0 plaintext) ++ ':' ::
        hexEncode (M.authTag (M.deriveKey secret) iv
          (xorKeystream (M.keystream (M.deriveKey secret) iv) 0 plaintext))) =
        [hexEncode iv,
          hexEncode (xorKeystream (M.keystream (M.deriveKey secret) iv) 0 plaintext),
          hexEncode (M.authTag (M.deriveKey secret) iv
            (xorKeystream (M.keystream (M.deriveKey secret) iv) 0 plaintext))] := by
      rw [List.append_assoc, List.cons_append,
        splitOnChar_append_sep _ _ _ (hexEncode_ne_colon iv),
        splitOnChar_append_sep _ _ _ (hexEncode_ne_colon _),
        splitOnChar_no_sep _ _ (hexEncode_ne_colon _)]
    simp only [decryptPassword, hne, Bool.false_eq_true, if_false, hsplit,
      hexDecode_hexEncode iv hiv, hexDecode_hexEncode _ hE, hexDecode_hexEncode _ hT,
      Option.bind_eq_bind, Option.some_bind]
    simp only [if_true]
    rw [xorKeystream_involutive]

/-- Witness for `credential_codec_roundtrip`: the two-byte password
`[104, 105]` ("hi") under the degenerate cipher with IV byte 7. -/
theorem credential_codec_roundtrip_witness :
    ∃ blob, encryptPassword trivialCipher ("secret") [7] [104, 105] = some blob ∧
      decryptPassword trivialCipher ("secret") blob = some [104, 105] :=
  credential_codec_roundtrip trivialCipher ("secret") [7] [104, 105]
    (by decide) (by decide) (by decide)

end NovaMail
